import Mathlib

/-!
Shallow embedding of the collaborative whiteboard client
(src/components/Whiteboard.tsx, and the updated component carried in
src/app/page.tsx which adds the clear broadcast).

The drawing surface is modelled at the level of the 2D canvas context:
a context carries its stroke attributes, the current path being built
(`beginPath` / `moveTo` / `lineTo`), and the list of strokes painted so
far (`stroke` snapshots the current path together with the current
attributes; `clearRect` over the whole surface empties it).
-/

namespace Whiteboard

/-- Model a pixel coordinate pair (x, y) relative to the surface. -/
structure Point where
  x : Int
  y : Int
deriving DecidableEq, Repr

/-- Model one path-building operation of the 2D context. -/
inductive PathOp where
  | moveTo (p : Point)
  | lineTo (p : Point)
deriving DecidableEq, Repr

/-- Return the coordinate an operation visits. -/
def PathOp.point : PathOp → Point
  | .moveTo p => p
  | .lineTo p => p

/-- Model one painted stroke: `ctx.stroke()` paints the current path with
the current strokeStyle and lineWidth. -/
structure Painted where
  ops : List PathOp
  color : String
  width : Nat
deriving DecidableEq, Repr

/-- Model the 2D rendering context: stroke attributes, the current path,
and everything painted so far on the surface. -/
structure Ctx where
  strokeStyle : String
  lineWidth : Nat
  lineCap : String
  lineJoin : String
  currentPath : List PathOp
  painted : List Painted
deriving DecidableEq, Repr

/-- Model a freshly obtained 2D context with its default attribute values
(strokeStyle black, lineWidth 1, lineCap butt, lineJoin miter) on a blank
surface. -/
def initialCtx : Ctx :=
  { strokeStyle := "#000000", lineWidth := 1, lineCap := "butt",
    lineJoin := "miter", currentPath := [], painted := [] }

/-- Model `ctx.strokeStyle = s`. -/
def Ctx.setStrokeStyle (c : Ctx) (s : String) : Ctx :=
  { c with strokeStyle := s }

/-- Model the `ctx.lineWidth = v` setter for a possibly-undefined JS value:
per the HTML canvas specification, values that are not finite numbers
greater than zero are ignored, so assigning `undefined` (here `none`)
or a non-positive value leaves the attribute unchanged. -/
def Ctx.setLineWidthJS (c : Ctx) (v : Option Nat) : Ctx :=
  { c with lineWidth :=
      match v with
      | some w => if 0 < w then w else c.lineWidth
      | none => c.lineWidth }

/-- Model `ctx.lineCap = s`. -/
def Ctx.setLineCap (c : Ctx) (s : String) : Ctx :=
  { c with lineCap := s }

/-- Model `ctx.lineJoin = s`. -/
def Ctx.setLineJoin (c : Ctx) (s : String) : Ctx :=
  { c with lineJoin := s }

/-- Model `ctx.beginPath()`: start a new, empty current path. -/
def Ctx.beginPath (c : Ctx) : Ctx :=
  { c with currentPath := [] }

/-- Model `ctx.moveTo(p)`. -/
def Ctx.moveTo (c : Ctx) (p : Point) : Ctx :=
  { c with currentPath := c.currentPath ++ [PathOp.moveTo p] }

/-- Model `ctx.lineTo(p)`. -/
def Ctx.lineTo (c : Ctx) (p : Point) : Ctx :=
  { c with currentPath := c.currentPath ++ [PathOp.lineTo p] }

/-- Model `ctx.stroke()`: paint the current path with the current
attributes. -/
def Ctx.stroke (c : Ctx) : Ctx :=
  { c with painted := c.painted ++ [⟨c.currentPath, c.strokeStyle, c.lineWidth⟩] }

/-- Model `ctx.clearRect(0, 0, canvas.width, canvas.height)`: the rectangle
covers the whole 800x600 surface, so every painted stroke is erased. -/
def Ctx.clearRectFull (c : Ctx) : Ctx :=
  { c with painted := [] }

/-- Model the row inserted into the `drawings` table by `handleMouseUp`:
`supabase.from('drawings').insert({ path, color, linewidth })` — note the
all-lowercase `linewidth` column key. -/
structure StrokeRow where
  path : List Point
  color : String
  linewidth : Nat
deriving DecidableEq, Repr

/-- Model the `Draw` TypeScript type of src/components/Whiteboard.tsx as a
runtime JS object: `path` and `lineWidth` may be absent (`undefined`) on a
value that was merely cast to `Draw`, which is modelled with `Option`. -/
structure Draw where
  path : Option (List Point)
  color : String
  lineWidth : Option Nat
deriving DecidableEq, Repr

/-- Model `payload.new as Draw` in the insert-notification handler of
src/components/Whiteboard.tsx: `payload.new` is the stored row, whose keys
are `path`, `color` and `linewidth` (the keys of the insert call in
`handleMouseUp`); a TypeScript cast does not rename keys, so reading the
`lineWidth` property of that object yields `undefined`. -/
def rowAsDraw (r : StrokeRow) : Draw :=
  { path := some r.path, color := r.color, lineWidth := none }

/-- Model `drawPath` of src/components/Whiteboard.tsx: guard on a missing
context, a missing path, or a path shorter than 2; otherwise set the stroke
attributes, begin a path at `path[0]`, line to each later point in index
order, and stroke. -/
def drawPath (draw : Draw) (canvas : Option Ctx) : Option Ctx :=
  match canvas with
  | none => none
  | some ctx =>
    match draw.path with
    | none => some ctx
    | some p =>
      match p with
      | p0 :: p1 :: rest =>
        let ctx := ctx.setStrokeStyle draw.color
        let ctx := ctx.setLineWidthJS draw.lineWidth
        let ctx := ctx.setLineCap "round"
        let ctx := ctx.setLineJoin "round"
        let ctx := ctx.beginPath
        let ctx := ctx.moveTo p0
        let ctx := (p1 :: rest).foldl (fun c q => c.lineTo q) ctx
        some ctx.stroke
      | _ => some ctx

/-- Model the `postgres_changes` INSERT handler of the realtime
subscription: cast the notified row and render it with `drawPath`,
unconditionally — the handler keeps no state of its own. -/
def onInsertNotification (r : StrokeRow) (canvas : Option Ctx) : Option Ctx :=
  drawPath (rowAsDraw r) canvas

/-- Deliver a sequence of insert notifications to one client, in order. -/
def processInserts (rs : List StrokeRow) (canvas : Option Ctx) : Option Ctx :=
  rs.foldl (fun c r => onInsertNotification r c) canvas

/-- Model one touch of a TouchEvent's `touches` list. -/
structure TouchPt where
  clientX : Int
  clientY : Int
deriving DecidableEq, Repr

/-- Model `canvas.getBoundingClientRect()` by its top-left corner. -/
structure Rect where
  left : Int
  top : Int
deriving DecidableEq, Repr

/-- Model the input events `getCoordinates` dispatches on:
`event instanceof MouseEvent`, else a TouchEvent with its `touches` list. -/
inductive InputEvent where
  | mouse (clientX clientY : Int)
  | touch (touches : List TouchPt)
deriving DecidableEq, Repr

/-- Model the canvas element (`canvasRef.current`): its bounding rect and
the result of `getContext('2d')`, which can itself be null. -/
structure Canvas where
  rect : Rect
  ctx : Option Ctx
deriving DecidableEq, Repr

/-- Model `getCoordinates` of src/components/Whiteboard.tsx: null when the
canvas ref is absent; for a mouse event, the client coordinates relative to
the bounding rect; for a touch event, the first touch relative to the rect,
or null when `event.touches[0]` is undefined. -/
def getCoordinates (canvas : Option Canvas) (event : InputEvent) : Option Point :=
  match canvas with
  | none => none
  | some cv =>
    match event with
    | .mouse cx cy => some ⟨cx - cv.rect.left, cy - cv.rect.top⟩
    | .touch ts =>
      match ts with
      | t :: _ => some ⟨t.clientX - cv.rect.left, t.clientY - cv.rect.top⟩
      | [] => none

/-- Model the component's mutable state: the canvas ref, the in-progress
path buffer (`currentPathRef`), the `isDrawing` flag, and the currently
selected color and line width. -/
structure WBState where
  canvas : Option Canvas
  currentPath : List Point
  isDrawing : Bool
  color : String
  lineWidth : Nat
deriving DecidableEq, Repr

/-- Model the recurring idiom
`const ctx = canvasRef.current?.getContext('2d'); if (!ctx) return;`
followed by mutations of `ctx`: apply `f` to the context when both the
canvas and its context are present, otherwise leave the state unchanged. -/
def WBState.modifyCtx (s : WBState) (f : Ctx → Ctx) : WBState :=
  match s.canvas with
  | some cv =>
    match cv.ctx with
    | some ctx => { s with canvas := some { cv with ctx := some (f ctx) } }
    | none => s
  | none => s

/-- Model `handleMouseDown`: set `isDrawing` first; if no coordinate can be
computed, return with no further effect; otherwise replace the path buffer
by the singleton of the new coordinate and begin a context path there. -/
def handleMouseDown (s : WBState) (e : InputEvent) : WBState :=
  let s := { s with isDrawing := true }
  match getCoordinates s.canvas e with
  | none => s
  | some coords =>
    let s := { s with currentPath := [coords] }
    s.modifyCtx (fun ctx => (ctx.beginPath).moveTo coords)

/-- Model `handleMouseMove`: ignore the event unless `isDrawing`; if no
coordinate can be computed, return; otherwise push the coordinate onto the
path buffer and render the incremental segment with the selected color and
width. -/
def handleMouseMove (s : WBState) (e : InputEvent) : WBState :=
  if s.isDrawing then
    match getCoordinates s.canvas e with
    | none => s
    | some coords =>
      let s := { s with currentPath := s.currentPath ++ [coords] }
      s.modifyCtx (fun ctx =>
        (((((ctx.setStrokeStyle s.color).setLineWidthJS
          (some s.lineWidth)).setLineCap "round").setLineJoin
          "round").lineTo coords).stroke)
  else s

/-- Model the outcome the backend reports for the awaited insert call. -/
inductive SubmitResult where
  | ok
  | err (e : String)
deriving DecidableEq, Repr

/-- Model the observable outcome of one `handleMouseUp` invocation: the new
component state, the insert calls issued to the backend (in order), and the
console-error log entries produced. -/
structure UpOutcome where
  state : WBState
  inserts : List StrokeRow
  log : List String
deriving DecidableEq, Repr

/-- Model `handleMouseUp`: clear `isDrawing`; when the buffered path has
more than one point, issue exactly one insert of
`{ path, color, linewidth }` and log
`console.error('Error saving drawing:', ...)` when the backend reports an
error; finally reset the path buffer to empty in every case. -/
def handleMouseUp (s : WBState) (result : SubmitResult) : UpOutcome :=
  let s := { s with isDrawing := false }
  if s.currentPath.length > 1 then
    let row : StrokeRow :=
      { path := s.currentPath, color := s.color, linewidth := s.lineWidth }
    let log : List String :=
      match result with
      | .ok => []
      | .err e => ["Error saving drawing: " ++ e]
    { state := { s with currentPath := [] }, inserts := [row], log := log }
  else
    { state := { s with currentPath := [] }, inserts := [], log := [] }

/-- Model the event-handler props bound on the `<canvas>` element of the
component's JSX. -/
structure CanvasProps where
  onMouseDown : WBState → InputEvent → WBState
  onMouseMove : WBState → InputEvent → WBState
  onMouseUp : WBState → SubmitResult → UpOutcome
  onMouseLeave : WBState → SubmitResult → UpOutcome

/-- Model the actual binding in the JSX: `onMouseDown={handleMouseDown}`,
`onMouseMove={handleMouseMove}`, `onMouseUp={handleMouseUp}`,
`onMouseLeave={handleMouseUp}`. -/
def whiteboardCanvasProps : CanvasProps :=
  { onMouseDown := handleMouseDown
    onMouseMove := handleMouseMove
    onMouseUp := handleMouseUp
    onMouseLeave := handleMouseUp }

/-!
Clear control and clear broadcast, from the updated component carried in
src/app/page.tsx.
-/

/-- Model `clearCanvasLocal`: when the canvas and its context are present,
clear the whole surface; otherwise do nothing. -/
def clearCanvasLocal (canvas : Option Ctx) : Option Ctx :=
  canvas.map Ctx.clearRectFull

/-- Model a realtime channel message `{ type, event }` as sent by
`channelRef.current?.send({ type: 'broadcast', event: 'clear' })`. -/
structure ChannelMsg where
  type : String
  event : String
deriving DecidableEq, Repr

/-- Model the subscribed handler
`channel.on('broadcast', { event: 'clear' }, () => clearCanvasLocal())`:
a delivered message with event `clear` wipes the receiving client's
surface; any other broadcast is not handled by this subscription. -/
def deliverBroadcast (msg : ChannelMsg) (canvas : Option Ctx) : Option Ctx :=
  if msg.event = "clear" then clearCanvasLocal canvas else canvas

/-- Model the externally visible effects `clearCanvas` performs, in program
order. -/
inductive ClearEffect where
  | clearLocalSurface
  | sendBroadcast (type event : String)
deriving DecidableEq, Repr

/-- Model `clearCanvas` of the updated component as its ordered effect
trace: first `clearCanvasLocal()`, then — when the channel ref is set —
`channelRef.current?.send({ type: 'broadcast', event: 'clear' })`. It
issues no call against the `drawings` table. -/
def clearCanvasTrace (channelPresent : Bool) : List ClearEffect :=
  [ClearEffect.clearLocalSurface] ++
    (if channelPresent then [ClearEffect.sendBroadcast "broadcast" "clear"] else [])

/-- Model the world visible to one client performing a clear: its own
canvas and the remote stroke store. -/
structure ClearWorld where
  localCanvas : Option Ctx
  rows : List StrokeRow
deriving DecidableEq, Repr

/-- Interpret one clear effect on the world, also collecting the channel
messages it emits. -/
def applyClearEffect (w : ClearWorld) (e : ClearEffect) : ClearWorld × List ChannelMsg :=
  match e with
  | .clearLocalSurface => ({ w with localCanvas := clearCanvasLocal w.localCanvas }, [])
  | .sendBroadcast t ev => (w, [⟨t, ev⟩])

/-- Interpret an effect trace in order, accumulating emitted messages. -/
def runClearEffects (w : ClearWorld) (es : List ClearEffect) : ClearWorld × List ChannelMsg :=
  es.foldl (fun acc e =>
    let r := applyClearEffect acc.1 e
    (r.1, acc.2 ++ r.2)) (w, [])

/-!
Helper lemmas shared by the verification theorems below.
-/

/-- Folding `lineTo` over a list of points appends the corresponding
`lineTo` operations to the current path, in order, and changes nothing
else. -/
theorem foldl_lineTo (qs : List Point) (c : Ctx) :
    qs.foldl (fun a q => a.lineTo q) c =
      { c with currentPath := c.currentPath ++ qs.map PathOp.lineTo } := by
  induction qs generalizing c with
  | nil => simp
  | cons q qs ih =>
    rw [List.foldl_cons, ih]
    simp [Ctx.lineTo, List.append_assoc]

/-- Characterisation of `drawPath` on a present context and a path of at
least two points: it paints exactly one new stroke, whose operations move
to the first point and line to each later point in order, with the given
color and with the width the `lineWidth` setter accepted. -/
theorem drawPath_cons (col : String) (lw : Option Nat) (p0 p1 : Point)
    (rest : List Point) (ctx : Ctx) :
    drawPath ⟨some (p0 :: p1 :: rest), col, lw⟩ (some ctx) = some
      { strokeStyle := col
        lineWidth := (ctx.setLineWidthJS lw).lineWidth
        lineCap := "round"
        lineJoin := "round"
        currentPath := PathOp.moveTo p0 :: (p1 :: rest).map PathOp.lineTo
        painted := ctx.painted ++
          [⟨PathOp.moveTo p0 :: (p1 :: rest).map PathOp.lineTo, col,
            (ctx.setLineWidthJS lw).lineWidth⟩] } := by
  simp only [drawPath, foldl_lineTo, Ctx.setStrokeStyle, Ctx.setLineWidthJS,
    Ctx.setLineCap, Ctx.setLineJoin, Ctx.beginPath, Ctx.moveTo, Ctx.stroke,
    List.nil_append, List.map_cons, List.singleton_append]

/-- The `modifyCtx` idiom only ever touches the context inside the canvas:
the drawing flag is preserved. -/
theorem modifyCtx_isDrawing (s : WBState) (f : Ctx → Ctx) :
    (s.modifyCtx f).isDrawing = s.isDrawing := by
  rcases s with ⟨canvas, path, d, col, lw⟩
  cases canvas with
  | none => rfl
  | some cv =>
    cases cv with
    | mk rect ctx => cases ctx <;> rfl

/-- The `modifyCtx` idiom only ever touches the context inside the canvas:
the path buffer is preserved. -/
theorem modifyCtx_currentPath (s : WBState) (f : Ctx → Ctx) :
    (s.modifyCtx f).currentPath = s.currentPath := by
  rcases s with ⟨canvas, path, d, col, lw⟩
  cases canvas with
  | none => rfl
  | some cv =>
    cases cv with
    | mk rect ctx => cases ctx <;> rfl

/-- Characterisation of the insert handler on a row whose path has at
least two points: the row is rendered with its stored color and path, but —
because the stored key is `linewidth` while `drawPath` reads `lineWidth` —
the width applied is whatever the context's `lineWidth` already was. -/
theorem onInsert_cons (r : StrokeRow) (p0 p1 : Point) (rest : List Point)
    (hp : r.path = p0 :: p1 :: rest) (ctx : Ctx) :
    onInsertNotification r (some ctx) = some
      { strokeStyle := r.color
        lineWidth := (ctx.setLineWidthJS none).lineWidth
        lineCap := "round"
        lineJoin := "round"
        currentPath := PathOp.moveTo p0 :: (p1 :: rest).map PathOp.lineTo
        painted := ctx.painted ++
          [⟨PathOp.moveTo p0 :: (p1 :: rest).map PathOp.lineTo, r.color,
            (ctx.setLineWidthJS none).lineWidth⟩] } := by
  unfold onInsertNotification
  rw [show rowAsDraw r = ⟨some (p0 :: p1 :: rest), r.color, none⟩ from by
    simp [rowAsDraw, hp]]
  exact drawPath_cons r.color none p0 p1 rest ctx

/-- Delivering one insert notification for a row with at least two path
points to a present context paints exactly one additional stroke. -/
theorem onInsert_paints_one (r : StrokeRow) (h2 : 2 ≤ r.path.length) (ctx : Ctx) :
    ∃ c, onInsertNotification r (some ctx) = some c ∧
      c.painted.length = ctx.painted.length + 1 := by
  rcases hp : r.path with _ | ⟨p0, _ | ⟨p1, rest⟩⟩
  · rw [hp] at h2; simp at h2
  · rw [hp] at h2; simp at h2
  · exact ⟨_, onInsert_cons r p0 p1 rest hp ctx, by simp⟩

/-!
Verification of the specified properties.
-/

/-- C6: for any path with 2 or more points, `drawPath` paints a single
connected polyline: it moves to the first point and draws a line segment to
each subsequent point in sequence, so the operations visit exactly the
points of the path in recorded order. -/
theorem drawPath_polyline (draw : Draw) (ctx : Ctx) (p0 p1 : Point)
    (rest : List Point) (hp : draw.path = some (p0 :: p1 :: rest)) :
    drawPath draw (some ctx) = some
      { strokeStyle := draw.color
        lineWidth := (ctx.setLineWidthJS draw.lineWidth).lineWidth
        lineCap := "round"
        lineJoin := "round"
        currentPath := PathOp.moveTo p0 :: (p1 :: rest).map PathOp.lineTo
        painted := ctx.painted ++
          [⟨PathOp.moveTo p0 :: (p1 :: rest).map PathOp.lineTo, draw.color,
            (ctx.setLineWidthJS draw.lineWidth).lineWidth⟩] } ∧
    (PathOp.moveTo p0 :: (p1 :: rest).map PathOp.lineTo).map PathOp.point =
      p0 :: p1 :: rest := by
  constructor
  · obtain ⟨path, col, lw⟩ := draw
    cases hp
    exact drawPath_cons col lw p0 p1 rest ctx
  · simp [PathOp.point, List.map_map, Function.comp_def]

/-- Witness for C6 at a concrete two-point path on a fresh context. -/
theorem drawPath_polyline_witness :
    drawPath ⟨some [⟨0, 0⟩, ⟨8, 6⟩], "#123456", some 2⟩ (some initialCtx) = some
      { strokeStyle := "#123456"
        lineWidth := 2
        lineCap := "round"
        lineJoin := "round"
        currentPath := [PathOp.moveTo ⟨0, 0⟩, PathOp.lineTo ⟨8, 6⟩]
        painted := [⟨[PathOp.moveTo ⟨0, 0⟩, PathOp.lineTo ⟨8, 6⟩], "#123456", 2⟩] } ∧
    ([PathOp.moveTo ⟨0, 0⟩, PathOp.lineTo ⟨8, 6⟩]).map PathOp.point =
      [⟨0, 0⟩, ⟨8, 6⟩] :=
  drawPath_polyline ⟨some [⟨0, 0⟩, ⟨8, 6⟩], "#123456", some 2⟩ initialCtx
    ⟨0, 0⟩ ⟨8, 6⟩ [] rfl

/-- C3: a path with fewer than 2 points is a silent no-op on both sides:
`handleMouseUp` issues no insert call and logs nothing (it still resets the
buffer), and `drawPath` returns the canvas untouched. -/
theorem short_path_silent (s : WBState) (res : SubmitResult) (draw : Draw)
    (p : List Point) (canvas : Option Ctx)
    (hs : s.currentPath.length < 2) (hd : draw.path = some p)
    (hp : p.length < 2) :
    (handleMouseUp s res).inserts = [] ∧
    (handleMouseUp s res).log = [] ∧
    drawPath draw canvas = canvas := by
  refine ⟨?_, ?_, ?_⟩
  · simp [handleMouseUp, show ¬ s.currentPath.length > 1 from by omega]
  · simp [handleMouseUp, show ¬ s.currentPath.length > 1 from by omega]
  · obtain ⟨path, col, lw⟩ := draw
    cases hd
    cases canvas with
    | none => rfl
    | some ctx =>
      match p, hp with
      | [], _ => rfl
      | [q], _ => rfl

/-- Witness for C3 at a one-point buffer and a one-point payload. -/
theorem short_path_silent_witness :
    (handleMouseUp
        { canvas := none, currentPath := [⟨1, 1⟩], isDrawing := true,
          color := "#000000", lineWidth := 5 } SubmitResult.ok).inserts = [] ∧
    (handleMouseUp
        { canvas := none, currentPath := [⟨1, 1⟩], isDrawing := true,
          color := "#000000", lineWidth := 5 } SubmitResult.ok).log = [] ∧
    drawPath ⟨some [⟨1, 1⟩], "#000000", some 5⟩ (some initialCtx) =
      some initialCtx :=
  short_path_silent
    { canvas := none, currentPath := [⟨1, 1⟩], isDrawing := true,
      color := "#000000", lineWidth := 5 }
    SubmitResult.ok ⟨some [⟨1, 1⟩], "#000000", some 5⟩ [⟨1, 1⟩]
    (some initialCtx) (by decide) rfl (by decide)

/-- C2: evaluation at a concrete round trip. A stroke submitted by
`handleMouseUp` with selected width 7 is stored with key `linewidth`; when
its insert notification reaches the handler of
src/components/Whiteboard.tsx, `drawPath` reads the absent `lineWidth`
property, the context keeps its previous width 1, and the stroke is painted
with width 1, not the submitted 7 (the color is applied correctly). -/
theorem insert_width_mismatch :
    (handleMouseUp
        { canvas := none, currentPath := [⟨0, 0⟩, ⟨10, 10⟩], isDrawing := true,
          color := "#ff0000", lineWidth := 7 } SubmitResult.ok).inserts =
      [{ path := [⟨0, 0⟩, ⟨10, 10⟩], color := "#ff0000", linewidth := 7 }] ∧
    (onInsertNotification
        { path := [⟨0, 0⟩, ⟨10, 10⟩], color := "#ff0000", linewidth := 7 }
        (some initialCtx)).map
        (fun c => (c.painted.map Painted.width, c.painted.map Painted.color)) =
      some ([1], ["#ff0000"]) ∧
    (1 : Nat) ≠ 7 := by
  refine ⟨rfl, rfl, by decide⟩

/-- C4: the scenario pointer-down at (10,10), move to (20,10), move to
(20,20), release: the down coordinate becomes the single buffered point,
each move appends one point in event order, and release submits the buffer
unchanged as `path = [(10,10), (20,10), (20,20)]`. -/
theorem capture_scenario :
    (handleMouseDown
        { canvas := some { rect := { left := 0, top := 0 }, ctx := some initialCtx },
          currentPath := [], isDrawing := false, color := "#000000", lineWidth := 5 }
        (InputEvent.mouse 10 10)).currentPath = [⟨10, 10⟩] ∧
    (handleMouseMove
      (handleMouseDown
        { canvas := some { rect := { left := 0, top := 0 }, ctx := some initialCtx },
          currentPath := [], isDrawing := false, color := "#000000", lineWidth := 5 }
        (InputEvent.mouse 10 10))
      (InputEvent.mouse 20 10)).currentPath = [⟨10, 10⟩, ⟨20, 10⟩] ∧
    (handleMouseMove
      (handleMouseMove
        (handleMouseDown
          { canvas := some { rect := { left := 0, top := 0 }, ctx := some initialCtx },
            currentPath := [], isDrawing := false, color := "#000000", lineWidth := 5 }
          (InputEvent.mouse 10 10))
        (InputEvent.mouse 20 10))
      (InputEvent.mouse 20 20)).currentPath = [⟨10, 10⟩, ⟨20, 10⟩, ⟨20, 20⟩] ∧
    (handleMouseUp
      (handleMouseMove
        (handleMouseMove
          (handleMouseDown
            { canvas := some { rect := { left := 0, top := 0 }, ctx := some initialCtx },
              currentPath := [], isDrawing := false, color := "#000000", lineWidth := 5 }
            (InputEvent.mouse 10 10))
          (InputEvent.mouse 20 10))
        (InputEvent.mouse 20 20))
      SubmitResult.ok).inserts =
      [{ path := [⟨10, 10⟩, ⟨20, 10⟩, ⟨20, 20⟩], color := "#000000", linewidth := 5 }] := by
  refine ⟨rfl, rfl, rfl, rfl⟩

/-- C5: `handleMouseUp` is fire-and-forget. It issues at most one insert
call, the calls it issues do not depend on the backend's outcome (no
retry), the path buffer is reset to empty and `isDrawing` cleared whatever
the outcome, the canvas — holding the optimistic rendering — is left
untouched (no rollback), and a reported error on a submitted stroke is
logged. -/
theorem mouseUp_fire_and_forget (s : WBState) (res : SubmitResult) :
    (handleMouseUp s res).inserts.length ≤ 1 ∧
    (handleMouseUp s res).inserts = (handleMouseUp s SubmitResult.ok).inserts ∧
    (handleMouseUp s res).state.currentPath = [] ∧
    (handleMouseUp s res).state.isDrawing = false ∧
    (handleMouseUp s res).state.canvas = s.canvas ∧
    (∀ e, res = SubmitResult.err e → 1 < s.currentPath.length →
      (handleMouseUp s res).log = ["Error saving drawing: " ++ e]) := by
  by_cases h : s.currentPath.length > 1 <;> cases res <;>
    simp [handleMouseUp, h]

/-- Witness for C5 at a failing submission of a two-point stroke. -/
theorem mouseUp_fire_and_forget_witness :
    (handleMouseUp
        { canvas := none, currentPath := [⟨0, 0⟩, ⟨1, 1⟩], isDrawing := true,
          color := "#000000", lineWidth := 5 }
        (SubmitResult.err "boom")).inserts.length ≤ 1 ∧
    (handleMouseUp
        { canvas := none, currentPath := [⟨0, 0⟩, ⟨1, 1⟩], isDrawing := true,
          color := "#000000", lineWidth := 5 }
        (SubmitResult.err "boom")).state.currentPath = [] ∧
    (handleMouseUp
        { canvas := none, currentPath := [⟨0, 0⟩, ⟨1, 1⟩], isDrawing := true,
          color := "#000000", lineWidth := 5 }
        (SubmitResult.err "boom")).log = ["Error saving drawing: boom"] := by
  have h := mouseUp_fire_and_forget
    { canvas := none, currentPath := [⟨0, 0⟩, ⟨1, 1⟩], isDrawing := true,
      color := "#000000", lineWidth := 5 }
    (SubmitResult.err "boom")
  exact ⟨h.1, h.2.2.1, h.2.2.2.2.2 "boom" rfl (by decide)⟩

/-- C7: the insert-notification handler keeps no de-duplication state:
delivering the same notification twice invokes the handler twice on the
same row, delivering it n times is the n-fold iterate of the handler, and
on a present context each of the n deliveries of a renderable row paints
one more copy of the stroke. -/
theorem insert_notification_no_dedup (r : StrokeRow) (canvas : Option Ctx) :
    processInserts [r, r] canvas =
      onInsertNotification r (onInsertNotification r canvas) ∧
    (∀ n, processInserts (List.replicate n r) canvas =
      (fun c => onInsertNotification r c)^[n] canvas) ∧
    (2 ≤ r.path.length → ∀ (ctx : Ctx) (n : Nat),
      ∃ c, (fun c0 => onInsertNotification r c0)^[n] (some ctx) = some c ∧
        c.painted.length = ctx.painted.length + n) := by
  refine ⟨rfl, ?_, ?_⟩
  · intro n
    induction n generalizing canvas with
    | zero => rfl
    | succ n ih =>
      rw [List.replicate_succ, Function.iterate_succ_apply]
      exact ih (onInsertNotification r canvas)
  · intro h2 ctx n
    induction n with
    | zero => exact ⟨ctx, rfl, rfl⟩
    | succ n ih =>
      obtain ⟨c, hc, hlen⟩ := ih
      obtain ⟨c2, hc2, hlen2⟩ := onInsert_paints_one r h2 c
      refine ⟨c2, ?_, by omega⟩
      rw [Function.iterate_succ_apply', hc]
      exact hc2

/-- Witness for C7: two deliveries of one concrete stroke paint it twice. -/
theorem insert_notification_no_dedup_witness :
    processInserts
        [{ path := [⟨0, 0⟩, ⟨1, 1⟩], color := "#000000", linewidth := 3 },
         { path := [⟨0, 0⟩, ⟨1, 1⟩], color := "#000000", linewidth := 3 }]
        (some initialCtx) =
      onInsertNotification
        { path := [⟨0, 0⟩, ⟨1, 1⟩], color := "#000000", linewidth := 3 }
        (onInsertNotification
          { path := [⟨0, 0⟩, ⟨1, 1⟩], color := "#000000", linewidth := 3 }
          (some initialCtx)) ∧
    ∃ c, (fun c0 => onInsertNotification
        { path := [⟨0, 0⟩, ⟨1, 1⟩], color := "#000000", linewidth := 3 } c0)^[2]
        (some initialCtx) = some c ∧
      c.painted.length = initialCtx.painted.length + 2 := by
  have h := insert_notification_no_dedup
    { path := [⟨0, 0⟩, ⟨1, 1⟩], color := "#000000", linewidth := 3 }
    (some initialCtx)
  exact ⟨h.1, h.2.2 (by decide) initialCtx 2⟩

/-- C8: the JSX binds the very same function to mouse-leave as to
mouse-up, so leaving the surface while capturing clears `isDrawing` and,
with at least 2 buffered points, submits the buffered stroke. -/
theorem mouseLeave_is_mouseUp :
    whiteboardCanvasProps.onMouseLeave = whiteboardCanvasProps.onMouseUp ∧
    ∀ (s : WBState) (res : SubmitResult),
      s.isDrawing = true → 2 ≤ s.currentPath.length →
      (whiteboardCanvasProps.onMouseLeave s res).state.isDrawing = false ∧
      (whiteboardCanvasProps.onMouseLeave s res).inserts =
        [{ path := s.currentPath, color := s.color, linewidth := s.lineWidth }] := by
  refine ⟨rfl, ?_⟩
  intro s res _ h2
  constructor <;>
    simp [whiteboardCanvasProps, handleMouseUp,
      show s.currentPath.length > 1 from by omega]

/-- Witness for C8 at a concrete capturing state. -/
theorem mouseLeave_is_mouseUp_witness :
    whiteboardCanvasProps.onMouseLeave = whiteboardCanvasProps.onMouseUp ∧
    (whiteboardCanvasProps.onMouseLeave
        { canvas := none, currentPath := [⟨0, 0⟩, ⟨1, 0⟩], isDrawing := true,
          color := "#fff000", lineWidth := 4 } SubmitResult.ok).state.isDrawing
      = false ∧
    (whiteboardCanvasProps.onMouseLeave
        { canvas := none, currentPath := [⟨0, 0⟩, ⟨1, 0⟩], isDrawing := true,
          color := "#fff000", lineWidth := 4 } SubmitResult.ok).inserts =
      [{ path := [⟨0, 0⟩, ⟨1, 0⟩], color := "#fff000", linewidth := 4 }] := by
  have h := mouseLeave_is_mouseUp
  have h2 := h.2
    { canvas := none, currentPath := [⟨0, 0⟩, ⟨1, 0⟩], isDrawing := true,
      color := "#fff000", lineWidth := 4 } SubmitResult.ok rfl (by decide)
  exact ⟨h.1, h2.1, h2.2⟩

/-- C9: `getCoordinates` is a total function that yields `none` exactly
when the canvas ref is absent or the event is a touch event with an empty
touch list; a mouse event with a present canvas always yields the
coordinate relative to the bounding rect. -/
theorem getCoordinates_total (canvas : Option Canvas) (e : InputEvent) :
    (getCoordinates canvas e = none ↔
      canvas = none ∨ e = InputEvent.touch []) ∧
    (∀ (cv : Canvas) (cx cy : Int),
      getCoordinates (some cv) (InputEvent.mouse cx cy) =
        some ⟨cx - cv.rect.left, cy - cv.rect.top⟩) := by
  constructor
  · cases canvas with
    | none => simp [getCoordinates]
    | some cv =>
      cases e with
      | mouse cx cy => simp [getCoordinates]
      | touch ts => cases ts <;> simp [getCoordinates]
  · intro cv cx cy
    rfl

/-- C10: every `handleMouseDown` invocation sets `isDrawing`, even when no
coordinate can be computed; in that case the path buffer (and the canvas)
are left as they were, and a subsequent move with an obtainable coordinate
appends to the retained buffer. -/
theorem mouseDown_always_capturing (s : WBState) (e e2 : InputEvent)
    (c : Point) (hnone : getCoordinates s.canvas e = none)
    (hsome : getCoordinates s.canvas e2 = some c) :
    (∀ e3, (handleMouseDown s e3).isDrawing = true) ∧
    (handleMouseDown s e).currentPath = s.currentPath ∧
    (handleMouseDown s e).canvas = s.canvas ∧
    (handleMouseMove (handleMouseDown s e) e2).currentPath =
      s.currentPath ++ [c] := by
  obtain ⟨canvas, path, d, col, lw⟩ := s
  have hdown : handleMouseDown ⟨canvas, path, d, col, lw⟩ e =
      ⟨canvas, path, true, col, lw⟩ := by
    simp only [handleMouseDown] at *
    rw [hnone]
  refine ⟨?_, ?_, ?_, ?_⟩
  · intro e3
    cases h : getCoordinates canvas e3 with
    | none => simp only [handleMouseDown]; rw [h]
    | some coords =>
      simp only [handleMouseDown]
      rw [h, modifyCtx_isDrawing]
  · rw [hdown]
  · rw [hdown]
  · rw [hdown]
    simp [handleMouseMove, hsome, modifyCtx_currentPath]

/-- Witness for C10: a touch event with no touches starts capturing with
an empty buffer, then a mouse move appends to it. -/
theorem mouseDown_always_capturing_witness :
    (handleMouseDown
        { canvas := some { rect := { left := 0, top := 0 }, ctx := some initialCtx },
          currentPath := [], isDrawing := false, color := "#000000", lineWidth := 5 }
        (InputEvent.touch [])).isDrawing = true ∧
    (handleMouseDown
        { canvas := some { rect := { left := 0, top := 0 }, ctx := some initialCtx },
          currentPath := [], isDrawing := false, color := "#000000", lineWidth := 5 }
        (InputEvent.touch [])).currentPath = [] ∧
    (handleMouseMove
        (handleMouseDown
          { canvas := some { rect := { left := 0, top := 0 }, ctx := some initialCtx },
            currentPath := [], isDrawing := false, color := "#000000", lineWidth := 5 }
          (InputEvent.touch []))
        (InputEvent.mouse 5 5)).currentPath = [⟨5, 5⟩] := by
  have h := mouseDown_always_capturing
    { canvas := some { rect := { left := 0, top := 0 }, ctx := some initialCtx },
      currentPath := [], isDrawing := false, color := "#000000", lineWidth := 5 }
    (InputEvent.touch []) (InputEvent.mouse 5 5) ⟨5, 5⟩ rfl rfl
  exact ⟨h.1 (InputEvent.touch []), h.2.1, h.2.2.2⟩

/-- C1: the Clear control first wipes the local surface, then emits one
broadcast message with event `clear` on the shared channel; interpreting
its effect trace leaves the remote stroke rows untouched and blanks the
local canvas, and a subscribed client that receives the broadcast blanks
its own canvas. -/
theorem clear_control (ctx remote : Ctx) (w : ClearWorld) :
    clearCanvasTrace true =
      [ClearEffect.clearLocalSurface,
       ClearEffect.sendBroadcast "broadcast" "clear"] ∧
    (runClearEffects w (clearCanvasTrace true)).1.rows = w.rows ∧
    (runClearEffects w (clearCanvasTrace true)).2 =
      [⟨"broadcast", "clear"⟩] ∧
    (runClearEffects { localCanvas := some ctx, rows := w.rows }
        (clearCanvasTrace true)).1.localCanvas =
      some (Ctx.clearRectFull ctx) ∧
    (Ctx.clearRectFull ctx).painted = [] ∧
    deliverBroadcast ⟨"broadcast", "clear"⟩ (some remote) =
      some (Ctx.clearRectFull remote) := by
  refine ⟨rfl, rfl, rfl, rfl, rfl, rfl⟩

end Whiteboard
